import Mathlib

/-!
Verification of `cuga/backend/llm/credential_context.py`.

The module stores an optional `RequestCredentials` bundle in a
`ContextVar` with default `None`.  We embed it in two layers:

* the four module functions act on the current flow's slot, an
  `Option RequestCredentials` (the value the `ContextVar` holds in the
  current context); they are translated here as functions taking that
  slot explicitly;
* the `ContextVar` itself is modelled as a store mapping each logical
  flow (a context) to its slot, with an interleaved trace semantics
  (`step` / `run`) used for the concurrency and lifecycle claims.
-/

/-- The `RequestCredentials` dataclass: six independently optional
string fields, all defaulting to `None` in the source. -/
structure RequestCredentials where
  api_key : Option String
  provider : Option String
  model : Option String
  base_url : Option String
  user_id : Option String
  organization_id : Option String
deriving Repr, DecidableEq

/-- `set_request_credentials`: constructs a fresh `RequestCredentials`
from the six arguments and stores it in the context variable,
discarding whatever the slot held before. -/
def set_request_credentials (api_key provider model base_url user_id organization_id : Option String)
    (_slot : Option RequestCredentials) : Option RequestCredentials :=
  some (RequestCredentials.mk api_key provider model base_url user_id organization_id)

/-- `get_request_credentials`: returns the context variable's current
value (`None` when nothing was set). -/
def get_request_credentials (slot : Option RequestCredentials) : Option RequestCredentials :=
  slot

/-- `clear_request_credentials`: stores `None` in the context variable. -/
def clear_request_credentials (_slot : Option RequestCredentials) : Option RequestCredentials :=
  none

/-- `has_request_credentials`: `creds is not None and creds.api_key is
not None` on the context variable's current value. -/
def has_request_credentials (slot : Option RequestCredentials) : Bool :=
  match slot with
  | none => false
  | some creds => creds.api_key.isSome

/-- The spec's presence gate, written from the spec's words: true iff
`get()` returns a non-absent bundle and that bundle's `api_key` is
non-empty and non-absent. -/
def spec_hasCredentials (slot : Option RequestCredentials) : Bool :=
  match get_request_credentials slot with
  | none => false
  | some creds =>
    match creds.api_key with
    | none => false
    | some k => decide (k ≠ "")

/-- One call into the module, as the four public functions. -/
inductive Op where
  | set (api_key provider model base_url user_id organization_id : Option String) : Op
  | get : Op
  | clear : Op
  | has : Op
deriving Repr, DecidableEq

/-- Whether an operation is a call to `set_request_credentials`. -/
def Op.isSet : Op → Bool
  | Op.set _ _ _ _ _ _ => true
  | _ => false

/-- The `ContextVar` seen across flows: each logical flow (context)
holds its own slot. -/
abbrev Store := Nat → Option RequestCredentials

/-- A fresh process: the context variable was declared with
`default=None`, so every flow's slot starts absent. -/
def initStore : Store := fun _ => none

/-- An event of an interleaved execution: which flow performs which
operation. -/
abbrev Event := Nat × Op

/-- Effect of one event on the store: the operation acts on the
performing flow's own slot and touches no other slot. -/
def step (σ : Store) (e : Event) : Store :=
  fun g =>
    if g = e.1 then
      match e.2 with
      | Op.set a p m b u o => set_request_credentials a p m b u o (σ g)
      | Op.get => σ g
      | Op.clear => clear_request_credentials (σ g)
      | Op.has => σ g
    else σ g

/-- Run an interleaved trace of events from a store. -/
def run (σ : Store) (t : List Event) : Store :=
  t.foldl step σ

/-- What one call returns to its caller. -/
inductive Obs where
  | unit : Obs
  | bundle : Option RequestCredentials → Obs
  | flag : Bool → Obs
deriving Repr, DecidableEq

/-- Execute one call on the current flow's slot, recording the new
slot and the returned value; the outer `Option` marks a raised
exception, and no branch of the source raises. -/
def exec (op : Op) (slot : Option RequestCredentials) :
    Option (Option RequestCredentials × Obs) :=
  match op with
  | Op.set a p m b u o => some (set_request_credentials a p m b u o slot, Obs.unit)
  | Op.get => some (slot, Obs.bundle (get_request_credentials slot))
  | Op.clear => some (clear_request_credentials slot, Obs.unit)
  | Op.has => some (slot, Obs.flag (has_request_credentials slot))

theorem run_nil (σ : Store) : run σ [] = σ := rfl

theorem run_cons (σ : Store) (e : Event) (t : List Event) :
    run σ (e :: t) = run (step σ e) t := rfl

theorem run_append (σ : Store) (t₁ t₂ : List Event) :
    run σ (t₁ ++ t₂) = run (run σ t₁) t₂ :=
  List.foldl_append step σ t₁ t₂

/-- An event performed by another flow leaves a flow's slot untouched. -/
theorem step_other (σ : Store) (e : Event) (f : Nat) (h : e.1 ≠ f) :
    step σ e f = σ f := by
  unfold step
  rw [if_neg (fun hf => h hf.symm)]

/-- The new value of a flow's slot depends only on its old value and
the event, never on other slots. -/
theorem step_slot_congr (σ₁ σ₂ : Store) (e : Event) (f : Nat)
    (h : σ₁ f = σ₂ f) : step σ₁ e f = step σ₂ e f := by
  unfold step
  by_cases hf : f = e.1
  · rw [if_pos hf, if_pos hf]
    cases e.2 <;> simp [set_request_credentials, clear_request_credentials, h]
  · rw [if_neg hf, if_neg hf]
    exact h

/-- Two stores agreeing on a flow's slot keep agreeing on it along any
trace. -/
theorem run_slot_congr (t : List Event) : ∀ (σ₁ σ₂ : Store) (f : Nat),
    σ₁ f = σ₂ f → run σ₁ t f = run σ₂ t f := by
  induction t with
  | nil => intro σ₁ σ₂ f h; exact h
  | cons e t ih =>
    intro σ₁ σ₂ f h
    rw [run_cons, run_cons]
    exact ih (step σ₁ e) (step σ₂ e) f (step_slot_congr σ₁ σ₂ e f h)

/-- If a flow's slot is absent and the flow performs no `set` in a
trace, its slot stays absent. -/
theorem run_no_set (t : List Event) : ∀ (σ : Store) (f : Nat),
    σ f = none → (∀ e ∈ t, e.1 = f → e.2.isSet = false) →
    run σ t f = none := by
  induction t with
  | nil => intro σ f h _; exact h
  | cons e t ih =>
    intro σ f h hnoset
    obtain ⟨g, op⟩ := e
    rw [run_cons]
    refine ih (step σ (g, op)) f ?_
      (fun a ha hf => hnoset a (List.mem_cons_of_mem (g, op) ha) hf)
    by_cases hf : g = f
    · have hns := hnoset (g, op) (List.mem_cons_self (g, op) t) hf
      unfold step
      rw [if_pos hf.symm]
      cases op with
      | set a p m b u o => simp [Op.isSet] at hns
      | get => exact h
      | clear => rfl
      | has => exact h
    · rw [step_other σ (g, op) f hf]; exact h

/-- C2: for any two flows A and B executing in any interleaving, across
any number of surrounding events, a `set` performed in flow `g` is
never visible to a `get` performed in flow `f ≠ g`: the trace with the
`set` and the trace without it yield the same `get` result in `f`. -/
theorem set_isolated_across_flows (σ : Store) (t₁ t₂ : List Event) (f g : Nat)
    (a p m b u o : Option String) (h : g ≠ f) :
    get_request_credentials (run σ (t₁ ++ (g, Op.set a p m b u o) :: t₂) f) =
    get_request_credentials (run σ (t₁ ++ t₂) f) := by
  rw [run_append, run_append, run_cons]
  exact congrArg get_request_credentials
    (run_slot_congr t₂ _ _ f (step_other (run σ t₁) (g, Op.set a p m b u o) f h))

theorem set_isolated_across_flows_witness :
    (1 : Nat) ≠ 0 ∧
    get_request_credentials
      (run initStore ([] ++ (1, Op.set (some "b") none none none none none) :: []) 0) =
    get_request_credentials (run initStore ([] ++ []) 0) :=
  ⟨one_ne_zero,
    set_isolated_across_flows initStore [] [] 0 1
      (some "b") none none none none none one_ne_zero⟩

/-- C3: in a fresh process, a flow that never performs a `set` sees
`get() = None` and `hasCredentials() = false`, whatever any other flow
does. -/
theorem fresh_flow_absent (t : List Event) (f : Nat)
    (h : ∀ e ∈ t, e.1 = f → e.2.isSet = false) :
    get_request_credentials (run initStore t f) = none ∧
    has_request_credentials (run initStore t f) = false := by
  have h0 : run initStore t f = none := run_no_set t initStore f rfl h
  exact ⟨h0, by rw [h0]; rfl⟩

theorem fresh_flow_absent_witness :
    get_request_credentials
      (run initStore [(1, Op.set (some "a") none none none none none),
        (0, Op.get), (0, Op.has)] 0) = none ∧
    has_request_credentials
      (run initStore [(1, Op.set (some "a") none none none none none),
        (0, Op.get), (0, Op.has)] 0) = false :=
  fresh_flow_absent
    [(1, Op.set (some "a") none none none none none), (0, Op.get), (0, Op.has)]
    0 (by decide)

/-- C4: within one flow, a second `set` wholly replaces the first: after
`set` with arguments `a₁ …` and then `set` with arguments `a₂ …`,
`get()` returns exactly the bundle built from the second call's
arguments, with no field of the old bundle merged in. -/
theorem second_set_replaces_first (slot : Option RequestCredentials)
    (a₁ p₁ m₁ b₁ u₁ o₁ a₂ p₂ m₂ b₂ u₂ o₂ : Option String) :
    get_request_credentials
      (set_request_credentials a₂ p₂ m₂ b₂ u₂ o₂
        (set_request_credentials a₁ p₁ m₁ b₁ u₁ o₁ slot)) =
    some (RequestCredentials.mk a₂ p₂ m₂ b₂ u₂ o₂) := rfl

/-- C5: after a flow performs `clear`, and until it performs a new
`set`, every `get()` in the flow returns `None` and every
`hasCredentials()` returns `false` — exactly as if `set` had never been
called, whatever the prior history and whatever other flows do. -/
theorem clear_resets (σ : Store) (pre t : List Event) (f : Nat)
    (h : ∀ e ∈ t, e.1 = f → e.2.isSet = false) :
    get_request_credentials (run σ (pre ++ (f, Op.clear) :: t) f) = none ∧
    has_request_credentials (run σ (pre ++ (f, Op.clear) :: t) f) = false := by
  have h0 : run σ (pre ++ (f, Op.clear) :: t) f = none := by
    rw [run_append, run_cons]
    refine run_no_set t _ f ?_ h
    simp [step, clear_request_credentials]
  exact ⟨h0, by rw [h0]; rfl⟩

theorem clear_resets_witness :
    get_request_credentials
      (run initStore ([(0, Op.set (some "x") none none none none none)] ++
        (0, Op.clear) :: [(0, Op.get), (0, Op.has)]) 0) = none ∧
    has_request_credentials
      (run initStore ([(0, Op.set (some "x") none none none none none)] ++
        (0, Op.clear) :: [(0, Op.get), (0, Op.has)]) 0) = false :=
  clear_resets initStore [(0, Op.set (some "x") none none none none none)]
    [(0, Op.get), (0, Op.has)] 0 (by decide)

/-- C6: the six optional fields round-trip exactly: after `set` with any
choice of the six optional arguments, `get()` in the same flow returns
the bundle whose fields are precisely those arguments — each supplied
field equal to the supplied value, each unsupplied field absent. -/
theorem set_get_round_trip (slot : Option RequestCredentials)
    (a p m b u o : Option String) :
    get_request_credentials (set_request_credentials a p m b u o slot) =
    some (RequestCredentials.mk a p m b u o) := rfl

/-- C7: all four operations are total: on every operation (including
`set` with any combination of empty strings and absent values) and
every flow state, execution produces a result and never raises. -/
theorem operations_total (op : Op) (slot : Option RequestCredentials) :
    (exec op slot).isSome = true := by
  cases op <;> rfl

/-- C8: no operation mutates a previously constructed bundle: any step
either leaves a flow's slot holding the very same value, empties it, or
installs a bundle freshly constructed from the `set` arguments alone —
never a modified version of an existing bundle. -/
theorem bundles_never_mutated (σ : Store) (f : Nat) (e : Event) :
    step σ e f = σ f ∨ step σ e f = none ∨
    ∃ a p m b u o, e.2 = Op.set a p m b u o ∧
      step σ e f = some (RequestCredentials.mk a p m b u o) := by
  obtain ⟨g, op⟩ := e
  by_cases hf : f = g
  · cases op with
    | set a p m b u o =>
      exact Or.inr (Or.inr ⟨a, p, m, b, u, o, rfl,
        by simp [step, hf, set_request_credentials]⟩)
    | get => exact Or.inl (by simp [step])
    | clear => exact Or.inr (Or.inl (by simp [step, hf, clear_request_credentials]))
    | has => exact Or.inl (by simp [step])
  · exact Or.inl (step_other σ (g, op) f (fun hh => hf hh.symm))

/-- C9: `set()` with all six arguments absent installs a present
all-absent bundle: `get()` then returns a non-absent bundle with every
field absent (distinguishable via `get` from a fresh or cleared flow,
where `get` yields `None`), while `hasCredentials()` is still false. -/
theorem set_all_absent (slot : Option RequestCredentials) :
    get_request_credentials (set_request_credentials none none none none none none slot) =
      some (RequestCredentials.mk none none none none none none) ∧
    get_request_credentials (set_request_credentials none none none none none none slot) ≠
      get_request_credentials none ∧
    has_request_credentials (set_request_credentials none none none none none none slot) = false :=
  ⟨rfl, by simp [get_request_credentials, set_request_credentials], rfl⟩

/-- C10: `clear()` is idempotent and safe in every state: two
consecutive `clear`s equal a single `clear`, and `clear` on an unbound
flow leaves it unbound. -/
theorem clear_idempotent (slot : Option RequestCredentials) :
    clear_request_credentials (clear_request_credentials slot) =
      clear_request_credentials slot ∧
    clear_request_credentials none = none :=
  ⟨rfl, rfl⟩

/-- C1 counterexample: after `set(api_key="")` the code's
`has_request_credentials` returns `true`, while the spec's presence
gate (`api_key` non-empty and non-absent) says `false`: the claimed
equivalence fails at a bundle whose `api_key` is the empty string. -/
theorem has_credentials_empty_key_counterexample :
    has_request_credentials
      (set_request_credentials (some "") none none none none none none) = true ∧
    spec_hasCredentials
      (set_request_credentials (some "") none none none none none none) = false := by
  decide

/-- C1 (amended): `hasCredentials()` returns true iff `get()` returns a
non-absent bundle whose `api_key` field is non-absent; a bundle whose
`api_key` is the empty string counts as having credentials. -/
theorem has_credentials_iff_api_key_present (slot : Option RequestCredentials) :
    has_request_credentials slot = true ↔
    ∃ creds, get_request_credentials slot = some creds ∧ creds.api_key ≠ none := by
  cases slot with
  | none => simp [has_request_credentials, get_request_credentials]
  | some creds =>
    simp [has_request_credentials, get_request_credentials,
      Option.isSome_iff_ne_none]
